import Mathlib

/-!
Verification of the data-preparation and filter/aggregation pipeline of the
retail-sales dashboard (src/dashboard_app.py).  The pandas operations the
claims depend on are embedded as executable Lean definitions: rows of the
CSV become `RawRow`, `load_data`'s cleaning steps become `prepTable`, the
sidebar filter becomes `applyFilters`, and each chart's aggregate becomes a
pure function over the filtered view.
-/

namespace Dashboard

/-! ## Character and string primitives (Python `str` methods used at line 33) -/

/-- Uppercase ASCII letter, the notion of "not lowercase" the column-name
normalization must eliminate. -/
def isUpperA (c : Char) : Prop := 65 ≤ c.toNat ∧ c.toNat ≤ 90

instance (c : Char) : Decidable (isUpperA c) := by
  unfold isUpperA; infer_instance

/-- Python `str.lower` on one character (ASCII range, as the column names use). -/
def pyLowerChar (c : Char) : Char :=
  if 65 ≤ c.toNat ∧ c.toNat ≤ 90 then Char.ofNat (c.toNat + 32) else c

/-- Python `str.strip`: drop leading and trailing whitespace. -/
def pyStrip (l : List Char) : List Char :=
  ((l.dropWhile Char.isWhitespace).reverse.dropWhile Char.isWhitespace).reverse

/-- Python `str.replace(' ', '')`: remove every space character. -/
def removeSpaces (l : List Char) : List Char := l.filter (fun c => !(c == ' '))

/-- One step of Python `str.replace('%', 'percent')`. -/
def expandPercent (c : Char) : List Char := if c = '%' then "percent".data else [c]

/-- Python `str.replace('%', 'percent')` over a whole string. -/
def replacePercent (l : List Char) : List Char := (l.map expandPercent).flatten

/-- Column-name normalization of dashboard_app.py line 33:
`col.strip().lower().replace(' ', '').replace('%', 'percent')`. -/
def canonicalize (s : String) : String :=
  ⟨replacePercent (removeSpaces ((pyStrip s.data).map pyLowerChar))⟩

/-- The column names of the prepared table: every raw name canonicalized, plus
the three derived columns added by `load_data` (lines 40-42). -/
def preparedColumns (names : List String) : List String :=
  names.map canonicalize ++ ["month", "dayofweek", "hour"]

/-! ## Number parsing (`pd.to_numeric(errors='coerce')`) -/

/-- Value of one decimal digit, `none` for any other character. -/
def digitVal (c : Char) : Option ℕ :=
  if 48 ≤ c.toNat ∧ c.toNat ≤ 57 then some (c.toNat - 48) else none

/-- Read a non-empty all-digit character list as a natural number. -/
def digitsToNat (l : List Char) : Option ℕ :=
  l.foldl
    (fun acc c =>
      match acc, digitVal c with
      | some a, some d => some (a * 10 + d)
      | _, _ => none)
    (if l.isEmpty then none else some 0)

/-- Split a character list on a separator character (like Python `str.split(sep)`). -/
def splitOnChar (sep : Char) : List Char → List (List Char)
  | [] => [[]]
  | c :: cs =>
    match splitOnChar sep cs with
    | [] => if c = sep then [[], []] else [[c]]
    | g :: gs => if c = sep then [] :: g :: gs else (c :: g) :: gs

/-- Numeric coercion of one CSV cell, the `pd.to_numeric(..., errors='coerce')`
of lines 47-50: optional sign, integer part, optional fractional part; anything
else becomes a missing value. -/
def parseRat (s : String) : Option ℚ :=
  let l := pyStrip s.data
  let signAndRest : Bool × List Char :=
    match l with
    | '-' :: r => (true, r)
    | '+' :: r => (false, r)
    | _ => (false, l)
  let mk : ℚ → Option ℚ := fun q => some (if signAndRest.1 then -q else q)
  match splitOnChar '.' signAndRest.2 with
  | [ip] =>
    match digitsToNat ip with
    | some n => mk (n : ℚ)
    | none => none
  | [ip, fp] =>
    match ip, fp with
    | [], [] => none
    | [], _ =>
      match digitsToNat fp with
      | some f => mk ((f : ℚ) / ((10 : ℚ) ^ fp.length))
      | none => none
    | _, [] =>
      match digitsToNat ip with
      | some n => mk (n : ℚ)
      | none => none
    | _, _ =>
      match digitsToNat ip, digitsToNat fp with
      | some n, some f => mk ((n : ℚ) + (f : ℚ) / ((10 : ℚ) ^ fp.length))
      | _, _ => none
  | _ => none

/-- `pd.to_numeric(errors='coerce')` on a cell that may already be missing. -/
def toNumericOpt (v : Option String) : Option ℚ := v.bind parseRat

/-! ## Calendar arithmetic and date parsing (`pd.to_datetime(format='%m/%d/%Y')`) -/

/-- A parsed timestamp.  Parsing a date with format `%m/%d/%Y` leaves the clock
fields at midnight, which is what `dt.hour` later reads. -/
structure DateT where
  year : ℕ
  month : ℕ
  day : ℕ
  hour : ℕ
  minute : ℕ
deriving DecidableEq, Repr

/-- A parsed clock time (`pd.to_datetime(format='%H:%M').dt.time`). -/
structure TimeT where
  hour : ℕ
  minute : ℕ
deriving DecidableEq, Repr

/-- Gregorian leap year. -/
def isLeap (y : ℕ) : Bool := y % 4 = 0 && (y % 100 ≠ 0 || y % 400 = 0)

/-- Days in a Gregorian month. -/
def daysInMonth (y m : ℕ) : ℕ :=
  if m = 2 then (if isLeap y then 29 else 28)
  else if m = 4 ∨ m = 6 ∨ m = 9 ∨ m = 11 then 30
  else 31

/-- Day count of a Gregorian civil date (days since 0000-03-01), used both for
the weekday and for the pandas `Timestamp` range check. -/
def daysFromCivil (y m d : ℕ) : ℕ :=
  let y2 := if m ≤ 2 then y - 1 else y
  let era := y2 / 400
  let yoe := y2 % 400
  let mp := if 2 < m then m - 3 else m + 9
  let doy := (153 * mp + 2) / 5 + d - 1
  let doe := yoe * 365 + yoe / 4 - yoe / 100 + doy
  era * 146097 + doe

/-- First whole day representable by a pandas `Timestamp` (1677-09-22). -/
def tsMinDay : ℕ := daysFromCivil 1677 9 22

/-- Last whole day representable by a pandas `Timestamp` (2262-04-11). -/
def tsMaxDay : ℕ := daysFromCivil 2262 4 11

/-- Weekday index with Monday = 0 ... Sunday = 6 (pandas day-name convention). -/
def weekdayIdx (dt : DateT) : ℕ := (daysFromCivil dt.year dt.month dt.day + 2) % 7

/-- The fixed seven day names of dashboard_app.py line 44, Monday to Sunday. -/
def day_order : List String :=
  ["Monday", "Tuesday", "Wednesday", "Thursday", "Friday", "Saturday", "Sunday"]

/-- `Series.dt.day_name()`: the English weekday name of a parsed date. -/
def dayName (dt : DateT) : String := day_order.getD (weekdayIdx dt) ""

/-- Is a character list made of 1 or 2 digits (what strptime `%m`/`%d` accept)? -/
def oneOrTwoDigits (l : List Char) : Bool := l.length = 1 || l.length = 2

/-- `pd.to_datetime(s, format='%m/%d/%Y', errors='coerce')` on one cell:
month/day of 1-2 digits, year of exactly 4 digits, a real calendar date inside
the pandas `Timestamp` range; anything else coerces to a missing value.  The
produced timestamp is at midnight: the format carries no clock time. -/
def parseDateMDY (s : String) : Option DateT :=
  match splitOnChar '/' s.data with
  | [ms, ds, ys] =>
    match digitsToNat ms, digitsToNat ds, digitsToNat ys with
    | some m, some d, some y =>
      if oneOrTwoDigits ms ∧ oneOrTwoDigits ds ∧ ys.length = 4
          ∧ 1 ≤ m ∧ m ≤ 12 ∧ 1 ≤ d ∧ d ≤ daysInMonth y m
          ∧ tsMinDay ≤ daysFromCivil y m d ∧ daysFromCivil y m d ≤ tsMaxDay
      then some ⟨y, m, d, 0, 0⟩
      else none
    | _, _, _ => none
  | _ => none

/-- `pd.to_datetime(s, format='%H:%M', errors='coerce').dt.time` on one cell. -/
def parseTimeHM (s : String) : Option TimeT :=
  match splitOnChar ':' s.data with
  | [hs, ms] =>
    match digitsToNat hs, digitsToNat ms with
    | some h, some m =>
      if oneOrTwoDigits hs ∧ oneOrTwoDigits ms ∧ h ≤ 23 ∧ m ≤ 59
      then some ⟨h, m⟩
      else none
    | _, _ => none
  | _ => none

/-- Decimal digits of a natural number (fuel-driven so it evaluates in the kernel). -/
def natDigits : ℕ → ℕ → List Char
  | 0, _ => []
  | fuel + 1, n =>
    if n < 10 then [Char.ofNat (48 + n)]
    else natDigits fuel (n / 10) ++ [Char.ofNat (48 + n % 10)]

/-- Decimal string of a natural number. -/
def natToStr (n : ℕ) : String := ⟨natDigits (n + 1) n⟩

/-- Zero-padded two-digit rendering, as a `Period('M')` prints its month. -/
def pad2 (n : ℕ) : String := if n < 10 then "0" ++ natToStr n else natToStr n

/-- `df['date'].dt.to_period('M').astype(str)` on one row (line 40): a parsed
date becomes `"YYYY-MM"`, a missing date becomes the literal string `"NaT"` —
`astype(str)` turns the missing period into text, not into a missing value. -/
def monthStr (d : Option DateT) : String :=
  match d with
  | none => "NaT"
  | some dt => natToStr dt.year ++ "-" ++ pad2 dt.month

/-! ## Rows and the preparation pipeline (`load_data`, lines 29-56) -/

/-- One CSV row as `pd.read_csv` delivers it, columns already under their
canonical names: every cell is a string or a missing value. -/
structure RawRow where
  city : Option String
  branch : Option String
  customertype : Option String
  gender : Option String
  productline : Option String
  payment : Option String
  date : Option String
  time : Option String
  unitprice : Option String
  quantity : Option String
  tax5percent : Option String
  total : Option String
  cogs : Option String
  grossmarginpercentage : Option String
  grossincome : Option String
  rating : Option String
deriving DecidableEq, Repr

/-- One row of the prepared table: types coerced, calendar features derived. -/
structure PrepRow where
  city : Option String
  branch : Option String
  customertype : Option String
  gender : Option String
  productline : Option String
  payment : Option String
  date : Option DateT
  time : Option TimeT
  month : String
  dayofweek : Option String
  hour : Option ℚ
  unitprice : Option ℚ
  quantity : Option ℚ
  tax5percent : Option ℚ
  total : Option ℚ
  cogs : Option ℚ
  grossmarginpercentage : Option ℚ
  grossincome : Option ℚ
  rating : Option ℚ
deriving DecidableEq, Repr

/-- A default prepared row (used only to read a list entry by position). -/
def defRow : PrepRow :=
  ⟨none, none, none, none, none, none, none, none, "", none, none,
   none, none, none, none, none, none, none, none⟩

/-- The numeric columns of the prepared table: the eight coerced at lines 47-50
plus the derived `hour`, which is what `select_dtypes(include=np.number)` sees
at line 53. -/
inductive NumCol where
  | unitprice
  | quantity
  | tax5percent
  | total
  | cogs
  | grossmarginpercentage
  | grossincome
  | rating
  | hour
deriving DecidableEq, Repr

/-- Read one numeric column of a prepared row. -/
def getNum (r : PrepRow) : NumCol → Option ℚ
  | .unitprice => r.unitprice
  | .quantity => r.quantity
  | .tax5percent => r.tax5percent
  | .total => r.total
  | .cogs => r.cogs
  | .grossmarginpercentage => r.grossmarginpercentage
  | .grossincome => r.grossincome
  | .rating => r.rating
  | .hour => r.hour

/-- Lines 36-50 applied to one row: parse date and time with explicit formats
(failures coerce to missing), derive `month`, `dayofweek` and `hour` from the
parsed date, coerce the numeric columns.  The `dayofweek` string is then passed
through the ordered `Categorical` of lines 44-45, which keeps exactly the
values listed in `day_order`. -/
def prepRow0 (r : RawRow) : PrepRow :=
  let pd := r.date.bind parseDateMDY
  let pt := r.time.bind parseTimeHM
  { city := r.city
    branch := r.branch
    customertype := r.customertype
    gender := r.gender
    productline := r.productline
    payment := r.payment
    date := pd
    time := pt
    month := monthStr pd
    dayofweek := (pd.map dayName).bind (fun s => if s ∈ day_order then some s else none)
    hour := pd.map (fun dt => (dt.hour : ℚ))
    unitprice := toNumericOpt r.unitprice
    quantity := toNumericOpt r.quantity
    tax5percent := toNumericOpt r.tax5percent
    total := toNumericOpt r.total
    cogs := toNumericOpt r.cogs
    grossmarginpercentage := toNumericOpt r.grossmarginpercentage
    grossincome := toNumericOpt r.grossincome
    rating := toNumericOpt r.rating }

/-- Insert a rational into a sorted list (ascending). -/
def insertSorted (x : ℚ) : List ℚ → List ℚ
  | [] => [x]
  | y :: ys => if x ≤ y then x :: y :: ys else y :: insertSorted x ys

/-- Sort a list of rationals ascending (insertion sort). -/
def sortQ : List ℚ → List ℚ
  | [] => []
  | x :: xs => insertSorted x (sortQ xs)

/-- `Series.median()` over the present values: midpoint of the sorted list,
mean of the two middle entries for an even count, missing for an empty list. -/
def median (xs : List ℚ) : Option ℚ :=
  let s := sortQ xs
  if s.length = 0 then none
  else if s.length % 2 = 1 then some (s.getD (s.length / 2) 0)
  else some ((s.getD (s.length / 2 - 1) 0 + s.getD (s.length / 2) 0) / 2)

/-- Median of one numeric column over a whole table, skipping missing values
(`df[col].median()` at line 54). -/
def medOf (t : List PrepRow) (c : NumCol) : Option ℚ :=
  median (t.filterMap (fun r => getNum r c))

/-- `fillna(value)` on one cell: a present value stays, a missing one becomes
the fill value (which is itself missing when the column had no present value,
leaving the cell missing, as `fillna(NaN)` does). -/
def fillVal (m : Option ℚ) : Option ℚ → Option ℚ
  | some v => some v
  | none => m

/-- Does a row hold any missing value?  (`df.isnull()` looks at every column;
`month` is a plain string column and is never missing.) -/
def rowHasNull (r : PrepRow) : Bool :=
  r.city.isNone || r.branch.isNone || r.customertype.isNone || r.gender.isNone ||
  r.productline.isNone || r.payment.isNone || r.date.isNone || r.time.isNone ||
  r.dayofweek.isNone || r.hour.isNone || r.unitprice.isNone || r.quantity.isNone ||
  r.tax5percent.isNone || r.total.isNone || r.cogs.isNone ||
  r.grossmarginpercentage.isNone || r.grossincome.isNone || r.rating.isNone

/-- The median imputation of lines 53-54 on one row: each numeric column's
missing entries become that column's median over the table `u`. -/
def fillRow (u : List PrepRow) (r : PrepRow) : PrepRow :=
  { r with
    unitprice := fillVal (medOf u .unitprice) r.unitprice
    quantity := fillVal (medOf u .quantity) r.quantity
    tax5percent := fillVal (medOf u .tax5percent) r.tax5percent
    total := fillVal (medOf u .total) r.total
    cogs := fillVal (medOf u .cogs) r.cogs
    grossmarginpercentage := fillVal (medOf u .grossmarginpercentage) r.grossmarginpercentage
    grossincome := fillVal (medOf u .grossincome) r.grossincome
    rating := fillVal (medOf u .rating) r.rating
    hour := fillVal (medOf u .hour) r.hour }

/-- The prepared table before imputation: lines 36-50 applied to every row. -/
def preTable (t : List RawRow) : List PrepRow := t.map prepRow0

/-- The full preparation of `load_data` (lines 30-56): parse, derive, coerce,
then — only when any cell anywhere is missing (`df.isnull().sum().any()`,
line 52) — fill every numeric column's missing entries with that column's
median over the full table. -/
def prepTable (t : List RawRow) : List PrepRow :=
  let u := preTable t
  if u.any rowHasNull then u.map (fillRow u) else u

/-! ## Load wrapper (lines 24-64): try/except around read and preparation -/

/-- Outcome of `pd.read_csv(file_path)` together with the rest of the `try`
body: the file may be missing (`FileNotFoundError`), or reading/cleaning may
raise some other exception, or the rows are delivered. -/
inductive ReadResult where
  | ok (rows : List RawRow)
  | fileNotFound
  | otherError
deriving DecidableEq, Repr

/-- A message rendered to the user by the boundary layer. -/
inductive UIMsg where
  | errorMsg (s : String)
  | infoMsg (s : String)
  | exceptionMsg
  | warnMsg (s : String)
deriving DecidableEq, Repr

/-- The `st.error` text of line 59, naming the missing path. -/
def fnfErrorText (file_path : String) : String :=
  "Error FileNotFoundError: No se encontro el archivo en la ruta esperada: " ++ file_path

/-- The `st.info` hint of line 60. -/
def fnfInfoText : String :=
  "Por favor, verifica que el nombre del archivo (data.csv) sea correcto."

/-- `load_data` (lines 24-64): on a successful read the cleaned table is
returned and nothing is reported; on `FileNotFoundError` a descriptive error
plus a hint are reported and no table is returned; on any other exception the
exception itself is surfaced and no table is returned.  No case re-raises and
no case retries. -/
def load_data (file_path : String) (rr : ReadResult) :
    Option (List PrepRow) × List UIMsg :=
  match rr with
  | .ok rows => (some (prepTable rows), [])
  | .fileNotFound => (none, [.errorMsg (fnfErrorText file_path), .infoMsg fnfInfoText])
  | .otherError => (none, [.exceptionMsg])

/-! ## Sidebar filter (lines 81-95) -/

/-- The city step of the filter: a non-sentinel selection keeps the rows whose
`city` equals it; the sentinel `"Todas"` keeps a copy of the whole table. -/
def cityFilter (data : List PrepRow) (selected_city : String) : List PrepRow :=
  if selected_city ≠ "Todas" then data.filter (fun r => r.city == some selected_city)
  else data

/-- Lines 83-95: city filter, then product-line filter; an empty product-line
selection yields an empty table and a sidebar warning. -/
def applyFilters (data : List PrepRow) (selected_city : String)
    (selected_lines : List String) : List PrepRow × List UIMsg :=
  let fd := cityFilter data selected_city
  if selected_lines.isEmpty then
    ([], [.warnMsg "Selecciona al menos una linea de producto."])
  else
    (fd.filter (fun r => selected_lines.any (fun l => r.productline == some l)), [])

/-- One user interaction: the stored full table is the state; the interaction
recomputes the view from it and leaves the stored table as the code leaves
`data` — untouched (lines 83-95 only ever bind new frames). -/
def filterStep (data : List PrepRow) (selected_city : String)
    (selected_lines : List String) :
    List PrepRow × (List PrepRow × List UIMsg) :=
  (data, applyFilters data selected_city selected_lines)

/-! ## Chart aggregates over the filtered view -/

/-- Does a row belong to the (product line, customer type) group of the grouped
bar chart (line 163)? -/
def keyMatch (pl ct : String) (r : PrepRow) : Bool :=
  (r.productline == some pl) && (r.customertype == some ct)

/-- The grouped-bar aggregate of line 163 (`estimator=sum` over `total`,
grouped by product line and hue customer type): sum of the present `total`
values of the rows in one group. -/
def barGroupSum (view : List PrepRow) (pl ct : String) : ℚ :=
  ((view.filter (keyMatch pl ct)).filterMap (fun r => r.total)).sum

/-- The (product line, customer type) key of a row, missing when either
attribute is missing (such rows belong to no group). -/
def rowKey (r : PrepRow) : Option (String × String) :=
  match r.productline, r.customertype with
  | some pl, some ct => some (pl, ct)
  | _, _ => none

/-- The `total` of a row that carries a full group key, else nothing. -/
def keyedTotal (r : PrepRow) : Option ℚ :=
  match rowKey r with
  | some _ => r.total
  | none => none

/-- What one row contributes to one group's bar: its `total` if it belongs to
the group, zero otherwise. -/
def contrib (r : PrepRow) (k : String × String) : ℚ :=
  if rowKey r = some k then r.total.getD 0 else 0

/-- Does a row belong to the (branch, gender) cell of the rating heatmap? -/
def cellMatch (b g : String) (r : PrepRow) : Bool :=
  (r.branch == some b) && (r.gender == some g)

/-- One cell of `filtered_data.pivot_table(index='branch', columns='gender',
values='rating', aggfunc='mean')` (line 177): the mean of the present ratings
of the rows with that branch and gender, absent when there are none. -/
def rating_pivot (view : List PrepRow) (b g : String) : Option ℚ :=
  if ((view.filter (cellMatch b g)).filterMap (fun r => r.rating)).length = 0 then none
  else some (((view.filter (cellMatch b g)).filterMap (fun r => r.rating)).sum
      / ((((view.filter (cellMatch b g)).filterMap (fun r => r.rating)).length : ℕ) : ℚ))

/-- The dropna of line 197: the pair-plot frame keeps a row only when every one
of `unitprice`, `quantity`, `total`, `rating` and `productline` is present
(those are the five selected columns). -/
def pairplotKeep (r : PrepRow) : Bool :=
  r.unitprice.isSome && r.quantity.isSome && r.total.isSome &&
  r.rating.isSome && r.productline.isSome

/-- Line 197, `filtered_data[vars + ['productline']].dropna()
.sample(n=min(500, len(filtered_data)))`: the requested sample size is
`min 500 (length of the view BEFORE dropping)`; `DataFrame.sample` raises when
that exceeds the rows left after dropping, which `none` models.  On success the
value is the number of sampled rows. -/
def pairplot_sample_size (view : List PrepRow) : Option ℕ :=
  if min 500 view.length ≤ (view.filter pairplotKeep).length
  then some (min 500 view.length) else none

/-! ## Concrete tables used to instantiate the theorems -/

/-- A typical raw row with a chosen date, product line and rating. -/
def sampleRaw (date productline rating : Option String) : RawRow :=
  { city := some "Yangon", branch := some "A", customertype := some "Member",
    gender := some "Female", productline := productline, payment := some "Cash",
    date := date, time := some "13:08", unitprice := some "74.69", quantity := some "7",
    tax5percent := some "26.14", total := some "548.97", cogs := some "522.83",
    grossmarginpercentage := some "4.76", grossincome := some "26.14", rating := rating }

/-- Two rows: a date that parses (a Saturday) and one that does not (Feb 30). -/
def tDates : List RawRow :=
  [sampleRaw (some "01/05/2019") (some "Health and beauty") (some "9.1"),
   sampleRaw (some "02/30/2019") (some "Health and beauty") (some "9.6")]

/-- Two rows whose `rating` column is missing everywhere. -/
def tAllMiss : List RawRow :=
  [sampleRaw (some "01/05/2019") (some "Health and beauty") none,
   sampleRaw (some "01/06/2019") (some "Health and beauty") none]

/-- Two rows with `rating` missing in the first and `8` in the second. -/
def tOneMiss : List RawRow :=
  [sampleRaw (some "01/05/2019") (some "Health and beauty") none,
   sampleRaw (some "01/06/2019") (some "Health and beauty") (some "8")]

/-- A fully prepared row with a chosen branch, gender, product line, customer
type, total and rating, used to build concrete filtered views directly. -/
def sampleView (b g pl ct : String) (total rating : ℚ) : PrepRow :=
  { city := some "Yangon", branch := some b, customertype := some ct,
    gender := some g, productline := some pl, payment := some "Cash",
    date := some ⟨2019, 1, 5, 0, 0⟩, time := some ⟨13, 8⟩, month := "2019-01",
    dayofweek := some "Saturday", hour := some 0, unitprice := some 10,
    quantity := some 2, tax5percent := some 1, total := some total,
    cogs := some 20, grossmarginpercentage := some 4, grossincome := some 1,
    rating := some rating }

/-! ## Helper lemmas: column-name normalization (claim C6) -/

theorem pyLowerChar_not_upper (c : Char) : ¬ isUpperA (pyLowerChar c) := by
  unfold pyLowerChar isUpperA
  by_cases h : 65 ≤ c.toNat ∧ c.toNat ≤ 90
  · rw [if_pos h]
    have hb : (c.toNat + 32).isValidChar := Or.inl (by omega)
    have hv : (Char.ofNat (c.toNat + 32)).toNat = c.toNat + 32 := by
      unfold Char.ofNat
      rw [dif_pos hb]
      rfl
    rw [hv]
    omega
  · rw [if_neg h]
    exact h

theorem mem_replacePercent {c : Char} {l : List Char} (h : c ∈ replacePercent l) :
    c ∈ "percent".data ∨ (c ∈ l ∧ c ≠ '%') := by
  unfold replacePercent at h
  rw [List.mem_flatten] at h
  obtain ⟨s, hs, hc⟩ := h
  rw [List.mem_map] at hs
  obtain ⟨x, hx, rfl⟩ := hs
  unfold expandPercent at hc
  by_cases hx' : x = '%'
  · rw [if_pos hx'] at hc
    exact Or.inl hc
  · rw [if_neg hx'] at hc
    rw [List.mem_singleton] at hc
    subst hc
    exact Or.inr ⟨hx, hx'⟩

theorem mem_removeSpaces {c : Char} {l : List Char} (h : c ∈ removeSpaces l) :
    c ∈ l ∧ c ≠ ' ' := by
  unfold removeSpaces at h
  rw [List.mem_filter] at h
  refine ⟨h.1, ?_⟩
  have := h.2
  simp only [Bool.not_eq_true', beq_eq_false_iff_ne, ne_eq] at this
  exact this

/-- Claim C6: every column name of the prepared table — each raw name after the
line-33 normalization, plus the derived `month`, `dayofweek` and `hour` — has
no uppercase letter, no space character, and no `%` character (every `%` having
been replaced by the string `percent`). -/
theorem c6_column_names :
    ∀ (names : List String), ∀ col ∈ preparedColumns names, ∀ c ∈ col.data,
      ¬ isUpperA c ∧ c ≠ ' ' ∧ c ≠ '%' := by
  intro names col hcol c hc
  unfold preparedColumns at hcol
  rw [List.mem_append] at hcol
  cases hcol with
  | inr h =>
    have hderived : ∀ s ∈ (["month", "dayofweek", "hour"] : List String),
        ∀ x ∈ s.data, ¬ isUpperA x ∧ x ≠ ' ' ∧ x ≠ '%' := by decide
    exact hderived col h c hc
  | inl h =>
    rw [List.mem_map] at h
    obtain ⟨nm, hnm, rfl⟩ := h
    have hc' : c ∈ replacePercent (removeSpaces ((pyStrip nm.data).map pyLowerChar)) := hc
    rcases mem_replacePercent hc' with hp | ⟨hmem, hpc⟩
    · have hpercent : ∀ x ∈ "percent".data, ¬ isUpperA x ∧ x ≠ ' ' ∧ x ≠ '%' := by decide
      exact hpercent c hp
    · obtain ⟨hmem2, hsp⟩ := mem_removeSpaces hmem
      rw [List.mem_map] at hmem2
      obtain ⟨x, hx, rfl⟩ := hmem2
      exact ⟨pyLowerChar_not_upper x, hsp, hpc⟩

/-- Claim C6 witness: the raw header `Tax 5%` at a concrete character. -/
theorem c6_column_names_witness :
    canonicalize "Tax 5%" ∈ preparedColumns ["Tax 5%"]
    ∧ 't' ∈ (canonicalize "Tax 5%").data
    ∧ (¬ isUpperA 't' ∧ 't' ≠ ' ' ∧ 't' ≠ '%') :=
  ⟨by decide, by decide,
   c6_column_names ["Tax 5%"] (canonicalize "Tax 5%") (by decide) 't' (by decide)⟩

/-! ## Helper lemmas: sorting, medians and imputation (claims C1, C3) -/

theorem length_insertSorted (x : ℚ) (l : List ℚ) :
    (insertSorted x l).length = l.length + 1 := by
  induction l with
  | nil => rfl
  | cons y ys ih =>
    unfold insertSorted
    by_cases h : x ≤ y
    · rw [if_pos h]
      rfl
    · rw [if_neg h]
      simp [ih]

theorem length_sortQ (l : List ℚ) : (sortQ l).length = l.length := by
  induction l with
  | nil => rfl
  | cons x xs ih =>
    unfold sortQ
    rw [length_insertSorted, ih]
    rfl

theorem mem_insertSorted {a x : ℚ} {l : List ℚ} (h : a ∈ insertSorted x l) :
    a = x ∨ a ∈ l := by
  induction l with
  | nil =>
    unfold insertSorted at h
    rw [List.mem_singleton] at h
    exact Or.inl h
  | cons y ys ih =>
    unfold insertSorted at h
    by_cases hxy : x ≤ y
    · rw [if_pos hxy] at h
      rcases List.mem_cons.mp h with h1 | h2
      · exact Or.inl h1
      · exact Or.inr h2
    · rw [if_neg hxy] at h
      rcases List.mem_cons.mp h with h1 | h2
      · exact Or.inr (List.mem_cons.mpr (Or.inl h1))
      · rcases ih h2 with h3 | h4
        · exact Or.inl h3
        · exact Or.inr (List.mem_cons.mpr (Or.inr h4))

theorem mem_sortQ {a : ℚ} {l : List ℚ} (h : a ∈ sortQ l) : a ∈ l := by
  induction l with
  | nil => exact absurd h (List.not_mem_nil a)
  | cons x xs ih =>
    unfold sortQ at h
    rcases mem_insertSorted h with h1 | h2
    · exact h1 ▸ List.mem_cons_self x xs
    · exact List.mem_cons.mpr (Or.inr (ih h2))

theorem getD_zero_of_all_zero {s : List ℚ} (h : ∀ x ∈ s, x = 0) (i : ℕ) :
    s.getD i 0 = 0 := by
  induction s generalizing i with
  | nil => cases i <;> rfl
  | cons y ys ih =>
    cases i with
    | zero => exact h y (List.mem_cons_self y ys)
    | succ j => exact ih (fun x hx => h x (List.mem_cons.mpr (Or.inr hx))) j

theorem median_isSome {xs : List ℚ} (h : xs ≠ []) : (median xs).isSome := by
  unfold median
  have hlen : (sortQ xs).length = xs.length := length_sortQ xs
  have hne : (sortQ xs).length ≠ 0 := by
    rw [hlen]
    have hp : 0 < xs.length := List.length_pos.mpr h
    omega
  rw [if_neg hne]
  by_cases hodd : (sortQ xs).length % 2 = 1
  · rw [if_pos hodd]
    rfl
  · rw [if_neg hodd]
    rfl

theorem median_all_zero {xs : List ℚ} (hne : xs ≠ []) (hz : ∀ x ∈ xs, x = 0) :
    median xs = some 0 := by
  unfold median
  have hz' : ∀ x ∈ sortQ xs, x = 0 := fun x hx => hz x (mem_sortQ hx)
  have hlen : (sortQ xs).length ≠ 0 := by
    rw [length_sortQ]
    have hp : 0 < xs.length := List.length_pos.mpr hne
    omega
  rw [if_neg hlen]
  by_cases hodd : (sortQ xs).length % 2 = 1
  · rw [if_pos hodd, getD_zero_of_all_zero hz']
  · rw [if_neg hodd, getD_zero_of_all_zero hz', getD_zero_of_all_zero hz']
    norm_num

theorem getNum_fillRow (u : List PrepRow) (r : PrepRow) (c : NumCol) :
    getNum (fillRow u r) c = fillVal (medOf u c) (getNum r c) := by
  cases c <;> rfl

theorem fillRow_date (u : List PrepRow) (r : PrepRow) : (fillRow u r).date = r.date := rfl

theorem fillRow_month (u : List PrepRow) (r : PrepRow) : (fillRow u r).month = r.month := rfl

theorem fillRow_dayofweek (u : List PrepRow) (r : PrepRow) :
    (fillRow u r).dayofweek = r.dayofweek := rfl

theorem rowHasNull_of_numMissing {r : PrepRow} {c : NumCol} (h : getNum r c = none) :
    rowHasNull r = true := by
  cases c <;> (simp only [getNum] at h; simp [rowHasNull, h])

theorem zip_self_map {α β : Type} (l : List α) (f : α → β) :
    l.zip (l.map f) = l.map (fun a => (a, f a)) :=
  (List.map_prod_left_eq_zip f).symm

theorem prepTable_eq_fill {t : List RawRow} (h : (preTable t).any rowHasNull = true) :
    prepTable t = (preTable t).map (fillRow (preTable t)) := by
  unfold prepTable
  rw [if_pos h]

/-- Claim C3 (amended): for every input table and every numeric column holding
at least one missing value and at least one present value after coercion, the
prepared column has zero missing values and every previously-missing entry
equals that column's median over the full, unfiltered, pre-imputation table.
(A numeric column with no present value at all keeps its missing entries: the
median of an empty set is itself missing.) -/
theorem c3_median_imputation :
    ∀ (t : List RawRow) (c : NumCol),
      (∃ r ∈ preTable t, getNum r c = none) →
      (∃ r ∈ preTable t, (getNum r c).isSome) →
      ∃ m, medOf (preTable t) c = some m
        ∧ (∀ r ∈ prepTable t, (getNum r c).isSome)
        ∧ (∀ p ∈ (preTable t).zip (prepTable t),
             getNum p.1 c = none → getNum p.2 c = some m) := by
  intro t c hmiss hpres
  have hmed : (medOf (preTable t) c).isSome := by
    unfold medOf
    apply median_isSome
    intro hnil
    obtain ⟨r, hr, hv⟩ := hpres
    have := (List.filterMap_eq_nil_iff.mp hnil) r hr
    rw [this] at hv
    exact absurd hv (by simp)
  obtain ⟨m, hm⟩ := Option.isSome_iff_exists.mp hmed
  have hany : (preTable t).any rowHasNull = true := by
    obtain ⟨r, hr, hv⟩ := hmiss
    exact List.any_eq_true.mpr ⟨r, hr, rowHasNull_of_numMissing hv⟩
  have hprep := prepTable_eq_fill hany
  refine ⟨m, hm, ?_, ?_⟩
  · intro r' hr'
    rw [hprep, List.mem_map] at hr'
    obtain ⟨r0, hr0, rfl⟩ := hr'
    rw [getNum_fillRow]
    cases h0 : getNum r0 c with
    | some v => simp [fillVal]
    | none =>
      simp only [fillVal, hm]
      rfl
  · intro p hp hmiss0
    rw [hprep, zip_self_map, List.mem_map] at hp
    obtain ⟨r0, hr0, rfl⟩ := hp
    simp only at hmiss0
    rw [getNum_fillRow, hmiss0]
    simp only [fillVal, hm]

/-- Claim C3 witness: a table whose `rating` is missing in the first row and
`8` in the second; the median over the present values is `8`. -/
theorem c3_median_imputation_witness :
    (∃ r ∈ preTable tOneMiss, getNum r NumCol.rating = none)
    ∧ (∃ r ∈ preTable tOneMiss, (getNum r NumCol.rating).isSome)
    ∧ (∃ m, medOf (preTable tOneMiss) NumCol.rating = some m
        ∧ (∀ r ∈ prepTable tOneMiss, (getNum r NumCol.rating).isSome)
        ∧ (∀ p ∈ (preTable tOneMiss).zip (prepTable tOneMiss),
             getNum p.1 NumCol.rating = none → getNum p.2 NumCol.rating = some m)) :=
  ⟨by decide, by decide,
   c3_median_imputation tOneMiss NumCol.rating (by decide) (by decide)⟩

/-- The literal reading of claim C3 at one table and one numeric column: any
missing value in the column forces the prepared column to be fully present,
with each previously-missing entry equal to the column's pre-imputation
median. -/
def C3claimAt (t : List RawRow) (c : NumCol) : Prop :=
  (∃ r ∈ preTable t, getNum r c = none) →
  ((∀ r ∈ prepTable t, (getNum r c).isSome)
    ∧ (∀ p ∈ (preTable t).zip (prepTable t),
         getNum p.1 c = none → getNum p.2 c = medOf (preTable t) c))

instance (t : List RawRow) (c : NumCol) : Decidable (C3claimAt t c) := by
  unfold C3claimAt
  infer_instance

/-- Claim C3 counterexample: in a table whose `rating` column is missing in
every row, the column still has missing values after preparation — the median
of no values is missing, and `fillna` with a missing value fills nothing. -/
theorem c3_median_imputation_cex : ¬ C3claimAt tAllMiss NumCol.rating := by
  decide

/-! ## Helper lemmas: day names and the ordered categorical (claims C1, C10) -/

/-- The code the ordered `Categorical` of line 45 assigns to a value: its
position in `day_order`; values outside the categories have no code. -/
def catCode (s : String) : Option ℕ := day_order.findIdx? (fun x => x == s)

/-- The order the `Categorical` of lines 44-45 sorts and groups by: comparison
of category codes. -/
def catLE (s1 s2 : String) : Prop :=
  ∃ i j, catCode s1 = some i ∧ catCode s2 = some j ∧ i ≤ j

theorem weekdayIdx_lt (dt : DateT) : weekdayIdx dt < 7 := by
  unfold weekdayIdx
  exact Nat.mod_lt _ (by omega)

theorem dayName_mem (dt : DateT) : dayName dt ∈ day_order := by
  unfold dayName
  have h7 := weekdayIdx_lt dt
  set k := weekdayIdx dt with hk
  interval_cases k <;> decide

theorem catCode_dayName (dt : DateT) : catCode (dayName dt) = some (weekdayIdx dt) := by
  unfold dayName
  have h7 := weekdayIdx_lt dt
  set k := weekdayIdx dt with hk
  interval_cases k <;> decide

theorem parseDateMDY_clock {s : String} {dt : DateT} (h : parseDateMDY s = some dt) :
    dt.hour = 0 ∧ dt.minute = 0 := by
  unfold parseDateMDY at h
  split at h
  · split at h
    · split at h
      · cases h
        exact ⟨rfl, rfl⟩
      · exact absurd h (by simp)
    · exact absurd h (by simp)
  · exact absurd h (by simp)

theorem prepRow0_date (raw : RawRow) :
    (prepRow0 raw).date = raw.date.bind parseDateMDY := rfl

theorem prepRow0_month (raw : RawRow) :
    (prepRow0 raw).month = monthStr (raw.date.bind parseDateMDY) := rfl

theorem prepRow0_hour (raw : RawRow) :
    (prepRow0 raw).hour = (raw.date.bind parseDateMDY).map (fun dt => (dt.hour : ℚ)) := rfl

theorem prepRow0_dayofweek (raw : RawRow) :
    (prepRow0 raw).dayofweek
      = ((raw.date.bind parseDateMDY).map dayName).bind
          (fun s => if s ∈ day_order then some s else none) := rfl

theorem prepRow0_dayofweek_of_date {raw : RawRow} {d : DateT}
    (h : (prepRow0 raw).date = some d) : (prepRow0 raw).dayofweek = some (dayName d) := by
  have hb : raw.date.bind parseDateMDY = some d := h
  rw [prepRow0_dayofweek, hb]
  simp [dayName_mem d]

theorem prepRow0_hour_of_date {raw : RawRow} {d : DateT}
    (h : (prepRow0 raw).date = some d) : (prepRow0 raw).hour = some 0 := by
  have hb : raw.date.bind parseDateMDY = some d := h
  have hd : d.hour = 0 := by
    cases hraw : raw.date with
    | none => rw [hraw] at hb; exact absurd hb (by simp)
    | some s =>
      rw [hraw] at hb
      exact (parseDateMDY_clock hb).1
  rw [prepRow0_hour, hb]
  simp [hd]

/-- Every member of the prepared table is the imputation image of a member of
the pre-imputation table (or that member itself when no cell was missing). -/
theorem mem_prepTable {t : List RawRow} {r : PrepRow} (h : r ∈ prepTable t) :
    ∃ r0 ∈ preTable t, r = r0 ∨ r = fillRow (preTable t) r0 := by
  unfold prepTable at h
  by_cases hany : (preTable t).any rowHasNull
  · rw [if_pos hany, List.mem_map] at h
    obtain ⟨r0, hr0, rfl⟩ := h
    exact ⟨r0, hr0, Or.inr rfl⟩
  · rw [if_neg hany] at h
    exact ⟨r, h, Or.inl rfl⟩

/-- The present values of the `hour` column are all zero: a date parsed with
`%m/%d/%Y` sits at midnight. -/
theorem hourVals_zero (t : List RawRow) :
    ∀ x ∈ (preTable t).filterMap (fun r => getNum r NumCol.hour), x = 0 := by
  intro x hx
  rw [List.mem_filterMap] at hx
  obtain ⟨r, hr, hv⟩ := hx
  rw [preTable, List.mem_map] at hr
  obtain ⟨raw, hraw, rfl⟩ := hr
  have : getNum (prepRow0 raw) NumCol.hour = (prepRow0 raw).hour := rfl
  rw [this, prepRow0_hour] at hv
  cases hb : raw.date.bind parseDateMDY with
  | none => rw [hb] at hv; exact absurd hv (by simp)
  | some d =>
    rw [hb] at hv
    have hd : d.hour = 0 := by
      cases hraw2 : raw.date with
      | none => rw [hraw2] at hb; exact absurd hb (by simp)
      | some s => rw [hraw2] at hb; exact (parseDateMDY_clock hb).1
    simp only [Option.map_some'] at hv
    rw [Option.some_inj] at hv
    rw [← hv, hd]
    norm_num

/-- Claim C1 (amended): for every row whose date parses, `dayofweek` is the
weekday name, one of the seven fixed names, and the ordered categorical ranks
the names exactly by Monday-to-Sunday calendar position (so sorting or grouping
by `dayofweek` respects calendar order); for every row whose date fails to
parse, `dayofweek` is missing, but `month` is the literal string `"NaT"` (not a
missing value) and `hour` is filled by the median imputation — it equals `0`
whenever any row of the table has a parsed date, and stays missing only when no
row does.  Preparation raises no error in either case. -/
theorem c1_dayofweek_and_date_failures :
    (∀ (t : List RawRow), ∀ r ∈ prepTable t,
       (∀ d, r.date = some d →
          r.dayofweek = some (dayName d) ∧ dayName d ∈ day_order
            ∧ catCode (dayName d) = some (weekdayIdx d))
       ∧ (r.date = none →
            r.dayofweek = none ∧ r.month = "NaT"
            ∧ ((∃ r2 ∈ prepTable t, (r2.date).isSome) → r.hour = some 0)
            ∧ ((∀ r2 ∈ prepTable t, r2.date = none) → r.hour = none)))
    ∧ (∀ d1 d2 : DateT,
        catLE (dayName d1) (dayName d2) ↔ weekdayIdx d1 ≤ weekdayIdx d2) := by
  constructor
  · intro t r hr
    obtain ⟨r0, hr0, hcase⟩ := mem_prepTable hr
    obtain ⟨raw, hraw, hbase⟩ := List.mem_map.mp hr0
    have hdate : r.date = r0.date := by
      rcases hcase with rfl | rfl
      · rfl
      · exact fillRow_date _ _
    have hdow : r.dayofweek = r0.dayofweek := by
      rcases hcase with rfl | rfl
      · rfl
      · exact fillRow_dayofweek _ _
    have hmonth : r.month = r0.month := by
      rcases hcase with rfl | rfl
      · rfl
      · exact fillRow_month _ _
    constructor
    · intro d hd
      have hd0 : r0.date = some d := by rw [← hdate]; exact hd
      rw [hdow, ← hbase] at *
      rw [← hbase] at hd0
      exact ⟨prepRow0_dayofweek_of_date hd0, dayName_mem d, catCode_dayName d⟩
    · intro hd
      have hd0 : (prepRow0 raw).date = none := by
        rw [hbase, ← hdate]
        exact hd
      have hbind : raw.date.bind parseDateMDY = none := hd0
      have hdow0 : r.dayofweek = none := by
        rw [hdow, ← hbase, prepRow0_dayofweek, hbind]
        rfl
      have hmonth0 : r.month = "NaT" := by
        rw [hmonth, ← hbase, prepRow0_month, hbind]
        rfl
      have hany : (preTable t).any rowHasNull = true := by
        apply List.any_eq_true.mpr
        refine ⟨prepRow0 raw, by rw [← hbase] at hr0; exact hr0, ?_⟩
        apply rowHasNull_of_numMissing (c := NumCol.hour)
        show (prepRow0 raw).hour = none
        rw [prepRow0_hour, hbind]
        rfl
      obtain ⟨r1, hr1, hfill⟩ : ∃ r1 ∈ preTable t, r = fillRow (preTable t) r1 := by
        have hr' := hr
        rw [prepTable_eq_fill hany, List.mem_map] at hr'
        obtain ⟨r1, hr1, hEq⟩ := hr'
        exact ⟨r1, hr1, hEq.symm⟩
      have hr1date : r1.date = none := by
        have : r.date = r1.date := by rw [hfill]; exact fillRow_date _ _
        rw [← this]
        exact hd
      obtain ⟨raw1, hraw1, hbase1⟩ := List.mem_map.mp hr1
      have hbind1 : raw1.date.bind parseDateMDY = none := by
        have : (prepRow0 raw1).date = none := by rw [hbase1]; exact hr1date
        exact this
      have hr1hour : r1.hour = none := by
        rw [← hbase1]
        show (prepRow0 raw1).hour = none
        rw [prepRow0_hour, hbind1]
        rfl
      refine ⟨hdow0, hmonth0, ?_, ?_⟩
      · intro hex
        obtain ⟨r2, hr2, hr2d⟩ := hex
        have hzero := hourVals_zero t
        have hne : (preTable t).filterMap (fun r => getNum r NumCol.hour) ≠ [] := by
          intro hnil
          obtain ⟨r20, hr20, h2case⟩ := mem_prepTable hr2
          have h2date : r2.date = r20.date := by
            rcases h2case with rfl | rfl
            · rfl
            · exact fillRow_date _ _
          obtain ⟨raw2, hraw2, hbase2⟩ := List.mem_map.mp hr20
          obtain ⟨d2, hd2⟩ := Option.isSome_iff_exists.mp hr2d
          have hd20 : (prepRow0 raw2).date = some d2 := by
            rw [hbase2, ← h2date]
            exact hd2
          have hh2 : (prepRow0 raw2).hour = some 0 := prepRow0_hour_of_date hd20
          have := (List.filterMap_eq_nil_iff.mp hnil) r20 hr20
          rw [← hbase2] at this
          have : (prepRow0 raw2).hour = none := this
          rw [hh2] at this
          exact absurd this (by simp)
        have hmed : medOf (preTable t) NumCol.hour = some 0 :=
          median_all_zero hne hzero
        rw [hfill]
        show fillVal (medOf (preTable t) NumCol.hour) r1.hour = some 0
        rw [hr1hour, hmed]
        rfl
      · intro hall
        have hnil : (preTable t).filterMap (fun r => getNum r NumCol.hour) = [] := by
          apply List.filterMap_eq_nil_iff.mpr
          intro a ha
          obtain ⟨raw2, hraw2, hbase2⟩ := List.mem_map.mp ha
          have hmem2 : a ∈ prepTable t ∨ fillRow (preTable t) a ∈ prepTable t := by
            unfold prepTable
            by_cases h2 : (preTable t).any rowHasNull
            · rw [if_pos h2]
              exact Or.inr (List.mem_map.mpr ⟨a, ha, rfl⟩)
            · rw [if_neg h2]
              exact Or.inl ha
          have hadate : a.date = none := by
            rcases hmem2 with hm | hm
            · exact hall a hm
            · have := hall _ hm
              rw [fillRow_date] at this
              exact this
          show a.hour = none
          rw [← hbase2] at hadate
          rw [← hbase2]
          have hbind2 : raw2.date.bind parseDateMDY = none := hadate
          rw [prepRow0_hour, hbind2]
          rfl
        have hmed : medOf (preTable t) NumCol.hour = none := by
          unfold medOf
          rw [hnil]
          rfl
        rw [hfill]
        show fillVal (medOf (preTable t) NumCol.hour) r1.hour = none
        rw [hr1hour, hmed]
        rfl
  · intro d1 d2
    rw [catLE]
    constructor
    · rintro ⟨i, j, hi, hj, hle⟩
      rw [catCode_dayName] at hi hj
      cases hi
      cases hj
      exact hle
    · intro hle
      exact ⟨weekdayIdx d1, weekdayIdx d2, catCode_dayName d1, catCode_dayName d2, hle⟩

theorem getD_mem_of_lt {α : Type} (l : List α) (i : ℕ) (d : α) (h : i < l.length) :
    l.getD i d ∈ l := by
  rw [List.getD_eq_getElem l d h]
  exact List.getElem_mem h

/-- Claim C1 witness: in the two-row table `tDates`, the first row's date
parses to Saturday 2019-01-05 and the second row's date (Feb 30) does not. -/
theorem c1_dayofweek_and_date_failures_witness :
    ((prepTable tDates).getD 0 defRow ∈ prepTable tDates
      ∧ ((prepTable tDates).getD 0 defRow).date = some ⟨2019, 1, 5, 0, 0⟩)
    ∧ (((prepTable tDates).getD 0 defRow).dayofweek = some (dayName ⟨2019, 1, 5, 0, 0⟩)
        ∧ dayName ⟨2019, 1, 5, 0, 0⟩ ∈ day_order
        ∧ catCode (dayName ⟨2019, 1, 5, 0, 0⟩) = some (weekdayIdx ⟨2019, 1, 5, 0, 0⟩))
    ∧ ((prepTable tDates).getD 1 defRow ∈ prepTable tDates
      ∧ ((prepTable tDates).getD 1 defRow).date = none)
    ∧ (((prepTable tDates).getD 1 defRow).dayofweek = none
        ∧ ((prepTable tDates).getD 1 defRow).month = "NaT"
        ∧ ((∃ r2 ∈ prepTable tDates, (r2.date).isSome) →
            ((prepTable tDates).getD 1 defRow).hour = some 0)
        ∧ ((∀ r2 ∈ prepTable tDates, r2.date = none) →
            ((prepTable tDates).getD 1 defRow).hour = none)) :=
  ⟨⟨getD_mem_of_lt _ 0 _ (by decide), by decide⟩,
   (c1_dayofweek_and_date_failures.1 tDates _
      (getD_mem_of_lt _ 0 _ (by decide))).1 _ (by decide),
   ⟨getD_mem_of_lt _ 1 _ (by decide), by decide⟩,
   (c1_dayofweek_and_date_failures.1 tDates _
      (getD_mem_of_lt _ 1 _ (by decide))).2 (by decide)⟩

/-- The literal reading of the failure half of claim C1 at one table: every row
whose date failed to parse has missing `dayofweek` and missing `hour` after
preparation.  (`month` cannot even be stated as missing: the prepared `month`
is a plain string column.) -/
def C1missingAt (t : List RawRow) : Prop :=
  ∀ r ∈ prepTable t, r.date = none → (r.dayofweek = none ∧ r.hour = none)

instance (t : List RawRow) : Decidable (C1missingAt t) := by
  unfold C1missingAt
  infer_instance

/-- Claim C1 counterexample: in `tDates` the failed-date row ends with
`hour = 0` — the `hour` column is numeric, so the median imputation of lines
52-54 fills it — contradicting "hour is missing after preparation". -/
theorem c1_dayofweek_and_date_failures_cex : ¬ C1missingAt tDates := by
  decide

/-- Claim C10: a date parsed under `%m/%d/%Y` carries no clock time — its
timestamp sits at midnight — and the derived `hour` column reads that
timestamp (line 42), never the separately parsed `time` column, so every row
with a parsed date has `hour = 0` in the prepared table. -/
theorem c10_hour_always_zero :
    (∀ (s : String) (d : DateT), parseDateMDY s = some d → d.hour = 0 ∧ d.minute = 0)
    ∧ (∀ (t : List RawRow), ∀ r ∈ prepTable t, ∀ d, r.date = some d → r.hour = some 0) := by
  constructor
  · intro s d h
    exact parseDateMDY_clock h
  · intro t r hr d hd
    obtain ⟨r0, hr0, hcase⟩ := mem_prepTable hr
    obtain ⟨raw, hraw, hbase⟩ := List.mem_map.mp hr0
    have hdate : r.date = r0.date := by
      rcases hcase with rfl | rfl
      · rfl
      · exact fillRow_date _ _
    have hd0 : (prepRow0 raw).date = some d := by
      rw [hbase, ← hdate]
      exact hd
    have hh : (prepRow0 raw).hour = some 0 := prepRow0_hour_of_date hd0
    rcases hcase with rfl | rfl
    · rw [← hbase]
      exact hh
    · show fillVal (medOf (preTable t) NumCol.hour) r0.hour = some 0
      rw [← hbase, hh]
      rfl

/-- Claim C10 witness: the parsed date `1/5/2019` and the first row of
`tDates`, whose derived hour is `0`. -/
theorem c10_hour_always_zero_witness :
    (parseDateMDY "1/5/2019" = some ⟨2019, 1, 5, 0, 0⟩
      ∧ ((⟨2019, 1, 5, 0, 0⟩ : DateT).hour = 0 ∧ (⟨2019, 1, 5, 0, 0⟩ : DateT).minute = 0))
    ∧ (((prepTable tDates).getD 0 defRow).date = some ⟨2019, 1, 5, 0, 0⟩
      ∧ ((prepTable tDates).getD 0 defRow).hour = some 0) :=
  ⟨⟨by decide, c10_hour_always_zero.1 "1/5/2019" _ (by decide)⟩,
   ⟨by decide,
    c10_hour_always_zero.2 tDates _ (getD_mem_of_lt _ 0 _ (by decide))
      (⟨2019, 1, 5, 0, 0⟩ : DateT) (by decide)⟩⟩

/-- Claim C4: filtering by a city absent from the data yields an empty view
(no error is possible: the filter is total), and an empty product-line
selection yields an empty view together with the sidebar warning rather than a
failure. -/
theorem c4_degenerate_filters :
    ∀ (t : List PrepRow) (c : String) (ls : List String),
      ((c ≠ "Todas") → (∀ r ∈ t, r.city ≠ some c) → (applyFilters t c ls).1 = [])
      ∧ ((applyFilters t c []).1 = []
          ∧ (applyFilters t c []).2
              = [UIMsg.warnMsg "Selecciona al menos una linea de producto."]) := by
  intro t c ls
  constructor
  · intro hc hcity
    unfold applyFilters
    by_cases hls : ls.isEmpty
    · rw [if_pos hls]
    · rw [if_neg hls]
      have hfd : cityFilter t c = [] := by
        unfold cityFilter
        rw [if_pos hc]
        apply List.filter_eq_nil_iff.mpr
        intro r hr
        simp only [beq_iff_eq]
        exact hcity r hr
      rw [hfd]
      rfl
  · exact ⟨rfl, rfl⟩

/-- Claim C4 witness: a one-row view of Yangon filtered by the absent city
`Paris`, and the same view with an empty product-line selection. -/
theorem c4_degenerate_filters_witness :
    ("Paris" ≠ "Todas")
    ∧ (∀ r ∈ [sampleView "A" "Female" "Health and beauty" "Member" 100 7],
        r.city ≠ some "Paris")
    ∧ (applyFilters [sampleView "A" "Female" "Health and beauty" "Member" 100 7]
        "Paris" ["Health and beauty"]).1 = []
    ∧ ((applyFilters [sampleView "A" "Female" "Health and beauty" "Member" 100 7]
          "Paris" []).1 = []
        ∧ (applyFilters [sampleView "A" "Female" "Health and beauty" "Member" 100 7]
            "Paris" []).2
            = [UIMsg.warnMsg "Selecciona al menos una linea de producto."]) :=
  ⟨by decide, by decide,
   (c4_degenerate_filters [sampleView "A" "Female" "Health and beauty" "Member" 100 7]
      "Paris" ["Health and beauty"]).1 (by decide) (by decide),
   (c4_degenerate_filters [sampleView "A" "Female" "Health and beauty" "Member" 100 7]
      "Paris" ["Health and beauty"]).2⟩

/-- Claim C9: one filter interaction leaves the stored full table exactly as it
was, and the view it renders is a fresh projection — a sublist of the full
table — recomputed by `applyFilters` from the current table and the current
filter inputs alone. -/
theorem c9_filter_no_mutation :
    ∀ (t : List PrepRow) (c : String) (ls : List String),
      (filterStep t c ls).1 = t
      ∧ ((filterStep t c ls).2.1).Sublist t
      ∧ (filterStep t c ls).2.1 = (applyFilters t c ls).1 := by
  intro t c ls
  refine ⟨rfl, ?_, rfl⟩
  show ((applyFilters t c ls).1).Sublist t
  unfold applyFilters
  by_cases hls : ls.isEmpty
  · rw [if_pos hls]
    exact List.nil_sublist t
  · rw [if_neg hls]
    apply List.Sublist.trans (List.filter_sublist _)
    unfold cityFilter
    by_cases hc : c ≠ "Todas"
    · rw [if_pos hc]
      exact List.filter_sublist t
    · rw [if_neg hc]

/-! ## Claims C7 and C2: heatmap cells and pair-plot sampling -/

theorem filterMap_rating_eq_map {l : List PrepRow} (h : ∀ r ∈ l, (r.rating).isSome) :
    l.filterMap (fun r => r.rating) = l.map (fun r => (r.rating).getD 0) := by
  induction l with
  | nil => rfl
  | cons a as ih =>
    have ha := h a (List.mem_cons_self a as)
    obtain ⟨v, hv⟩ := Option.isSome_iff_exists.mp ha
    rw [List.filterMap_cons, List.map_cons, hv]
    have has : ∀ r ∈ as, (r.rating).isSome :=
      fun r hr => h r (List.mem_cons.mpr (Or.inr hr))
    rw [ih has]
    rfl

/-- Claim C7: over a view whose ratings are all present (as every view drawn
from a successfully imputed table is), the heatmap cell at (branch, gender)
equals the arithmetic mean of `rating` over exactly the rows of the view with
that branch and gender, and is absent — not zero — when no such row exists. -/
theorem c7_rating_heatmap :
    ∀ (view : List PrepRow) (b g : String),
      (∀ r ∈ view, (r.rating).isSome) →
      ((view.filter (cellMatch b g) = [] → rating_pivot view b g = none)
        ∧ (view.filter (cellMatch b g) ≠ [] →
            rating_pivot view b g
              = some (((view.filter (cellMatch b g)).map (fun r => (r.rating).getD 0)).sum
                  / (((view.filter (cellMatch b g)).length : ℕ) : ℚ)))) := by
  intro view b g hall
  have hsub : ∀ r ∈ view.filter (cellMatch b g), (r.rating).isSome :=
    fun r hr => hall r (List.mem_filter.mp hr).1
  have hfm := filterMap_rating_eq_map hsub
  constructor
  · intro hnil
    unfold rating_pivot
    rw [hnil]
    rfl
  · intro hne
    unfold rating_pivot
    rw [hfm, List.length_map]
    have hlen : (view.filter (cellMatch b g)).length ≠ 0 := by
      intro h0
      exact hne (List.length_eq_zero.mp h0)
    rw [if_neg hlen]

/-- Claim C7 witness: a three-row view with two (A, Female) rows of ratings 4
and 8 — cell mean 6 — and no (B, Male) row — absent cell. -/
theorem c7_rating_heatmap_witness :
    (∀ r ∈ [sampleView "A" "Female" "Health and beauty" "Member" 100 4,
            sampleView "A" "Female" "Sports and travel" "Normal" 50 8,
            sampleView "B" "Female" "Health and beauty" "Member" 70 9],
       (r.rating).isSome)
    ∧ ([sampleView "A" "Female" "Health and beauty" "Member" 100 4,
        sampleView "A" "Female" "Sports and travel" "Normal" 50 8,
        sampleView "B" "Female" "Health and beauty" "Member" 70 9].filter
          (cellMatch "A" "Female") ≠ [])
    ∧ rating_pivot
        [sampleView "A" "Female" "Health and beauty" "Member" 100 4,
         sampleView "A" "Female" "Sports and travel" "Normal" 50 8,
         sampleView "B" "Female" "Health and beauty" "Member" 70 9] "A" "Female"
        = some (((([sampleView "A" "Female" "Health and beauty" "Member" 100 4,
            sampleView "A" "Female" "Sports and travel" "Normal" 50 8,
            sampleView "B" "Female" "Health and beauty" "Member" 70 9].filter
              (cellMatch "A" "Female")).map (fun r => (r.rating).getD 0)).sum)
            / ((([sampleView "A" "Female" "Health and beauty" "Member" 100 4,
            sampleView "A" "Female" "Sports and travel" "Normal" 50 8,
            sampleView "B" "Female" "Health and beauty" "Member" 70 9].filter
              (cellMatch "A" "Female")).length : ℕ) : ℚ))
    ∧ rating_pivot
        [sampleView "A" "Female" "Health and beauty" "Member" 100 4,
         sampleView "A" "Female" "Sports and travel" "Normal" 50 8,
         sampleView "B" "Female" "Health and beauty" "Member" 70 9] "B" "Male" = none :=
  ⟨by decide, by decide,
   (c7_rating_heatmap
      [sampleView "A" "Female" "Health and beauty" "Member" 100 4,
       sampleView "A" "Female" "Sports and travel" "Normal" 50 8,
       sampleView "B" "Female" "Health and beauty" "Member" 70 9] "A" "Female"
      (by decide)).2 (by decide),
   (c7_rating_heatmap
      [sampleView "A" "Female" "Health and beauty" "Member" 100 4,
       sampleView "A" "Female" "Sports and travel" "Normal" 50 8,
       sampleView "B" "Female" "Health and beauty" "Member" 70 9] "B" "Male"
      (by decide)).1 (by decide)⟩

/-- Claim C2 (amended): the pair-plot preparation drops rows missing any of
unit price, quantity, total, rating or product line (product line, the hue
column, is part of the dropped frame too); the requested sample size is
`min 500 (size of the view before dropping)`, so the step succeeds — with that
many rows — exactly when the post-drop frame still has that many rows; in
particular it never fails on a view with nothing to drop, but it raises (rather
than returning the remaining rows) whenever dropping shrank the frame below the
requested size. -/
theorem c2_pairplot_sampling :
    ∀ (view : List PrepRow),
      ((pairplot_sample_size view).isNone
          ↔ (view.filter pairplotKeep).length < min 500 view.length)
      ∧ ((∀ r ∈ view, pairplotKeep r = true) →
          pairplot_sample_size view = some (min 500 view.length))
      ∧ (∀ n, pairplot_sample_size view = some n →
          n ≤ 500 ∧ n ≤ (view.filter pairplotKeep).length ∧ n ≤ view.length) := by
  intro view
  refine ⟨?_, ?_, ?_⟩
  · unfold pairplot_sample_size
    by_cases h : min 500 view.length ≤ (view.filter pairplotKeep).length
    · rw [if_pos h]
      simp
      omega
    · rw [if_neg h]
      simp
      omega
  · intro hall
    have hfull : view.filter pairplotKeep = view := List.filter_eq_self.mpr hall
    unfold pairplot_sample_size
    rw [hfull, if_pos (Nat.min_le_right 500 view.length)]
  · intro n hn
    unfold pairplot_sample_size at hn
    by_cases h : min 500 view.length ≤ (view.filter pairplotKeep).length
    · rw [if_pos h] at hn
      have hn' : min 500 view.length = n := by
        injection hn
      have h1 : min 500 view.length ≤ 500 := Nat.min_le_left _ _
      have h2 : min 500 view.length ≤ view.length := Nat.min_le_right _ _
      omega
    · rw [if_neg h] at hn
      exact absurd hn (by simp)

/-- Claim C2 witness: a complete one-row view samples exactly `min 500 1` rows. -/
theorem c2_pairplot_sampling_witness :
    (∀ r ∈ [sampleView "A" "Female" "Health and beauty" "Member" 100 7],
        pairplotKeep r = true)
    ∧ pairplot_sample_size [sampleView "A" "Female" "Health and beauty" "Member" 100 7]
        = some (min 500 [sampleView "A" "Female" "Health and beauty" "Member" 100 7].length) :=
  ⟨by decide,
   (c2_pairplot_sampling
      [sampleView "A" "Female" "Health and beauty" "Member" 100 7]).2.1 (by decide)⟩

/-- The literal reading of claim C2 at one view: the preparation drops exactly
the rows missing one of the four numeric columns and then always succeeds,
returning `min 500 (rows remaining)` sampled rows. -/
def C2claimAt (view : List PrepRow) : Prop :=
  pairplot_sample_size view
    = some (min 500 (view.filter (fun r =>
        r.unitprice.isSome && r.quantity.isSome && r.total.isSome && r.rating.isSome)).length)

instance (view : List PrepRow) : Decidable (C2claimAt view) := by
  unfold C2claimAt
  infer_instance

/-- Claim C2 counterexample: prepare a table whose `rating` column is missing
in every row (so imputation cannot fill it), filter with city `Todas` and the
one product line — a perfectly ordinary view of 2 rows.  `dropna` then removes
every row while the requested sample size stays `min 500 2 = 2`, so
`DataFrame.sample` raises instead of returning the remaining rows. -/
theorem c2_pairplot_sampling_cex :
    ¬ C2claimAt (applyFilters (prepTable tAllMiss) "Todas" ["Health and beauty"]).1 := by
  decide

/-! ## Claim C5: the load boundary -/

/-- Claim C5: for every source path, `load_data` yields a table exactly when
the read succeeded; a missing file yields no table and reports the descriptive
path-naming error plus a hint; any other exception yields no table and
surfaces the exception.  In every case `load_data` returns — it neither
re-raises nor retries. -/
theorem c5_load_error_handling :
    ∀ (fp : String) (rr : ReadResult),
      ((load_data fp rr).1.isSome ↔ ∃ rows, rr = ReadResult.ok rows)
      ∧ (∀ rows, rr = ReadResult.ok rows →
          load_data fp rr = (some (prepTable rows), []))
      ∧ (rr = ReadResult.fileNotFound →
          load_data fp rr
            = (none, [UIMsg.errorMsg (fnfErrorText fp), UIMsg.infoMsg fnfInfoText]))
      ∧ (rr = ReadResult.otherError →
          load_data fp rr = (none, [UIMsg.exceptionMsg])) := by
  intro fp rr
  cases rr with
  | ok rows =>
    refine ⟨?_, ?_, ?_, ?_⟩
    · simp only [load_data]
      constructor
      · intro _
        exact ⟨rows, rfl⟩
      · intro _
        rfl
    · intro rows2 h
      cases h
      rfl
    · intro h
      exact absurd h (by simp)
    · intro h
      exact absurd h (by simp)
  | fileNotFound =>
    refine ⟨?_, ?_, ?_, ?_⟩
    · simp [load_data]
    · intro rows2 h
      exact absurd h (by simp)
    · intro _
      rfl
    · intro h
      exact absurd h (by simp)
  | otherError =>
    refine ⟨?_, ?_, ?_, ?_⟩
    · simp [load_data]
    · intro rows2 h
      exact absurd h (by simp)
    · intro h
      exact absurd h (by simp)
    · intro _
      rfl

/-- Claim C5 witness: the three read outcomes at the path `data.csv`. -/
theorem c5_load_error_handling_witness :
    load_data "data.csv" (ReadResult.ok tDates) = (some (prepTable tDates), [])
    ∧ load_data "data.csv" ReadResult.fileNotFound
        = (none, [UIMsg.errorMsg (fnfErrorText "data.csv"), UIMsg.infoMsg fnfInfoText])
    ∧ load_data "data.csv" ReadResult.otherError = (none, [UIMsg.exceptionMsg]) :=
  ⟨(c5_load_error_handling "data.csv" (ReadResult.ok tDates)).2.1 tDates rfl,
   (c5_load_error_handling "data.csv" ReadResult.fileNotFound).2.2.1 rfl,
   (c5_load_error_handling "data.csv" ReadResult.otherError).2.2.2 rfl⟩

/-! ## Claim C8: the grouped-bar aggregation partitions the view -/

theorem keyMatch_iff (pl ct : String) (r : PrepRow) :
    keyMatch pl ct r = true ↔ rowKey r = some (pl, ct) := by
  unfold keyMatch rowKey
  cases r.productline <;> cases r.customertype <;> simp [And.comm]

theorem contrib_eq (a : PrepRow) (k : String × String) :
    contrib a k = if keyMatch k.1 k.2 a then (a.total).getD 0 else 0 := by
  unfold contrib
  by_cases h : rowKey a = some k
  · rw [if_pos h, if_pos ((keyMatch_iff k.1 k.2 a).mpr h)]
  · rw [if_neg h, if_neg (fun hb => h ((keyMatch_iff k.1 k.2 a).mp hb))]

theorem barGroupSum_cons (a : PrepRow) (as : List PrepRow) (pl ct : String) :
    barGroupSum (a :: as) pl ct
      = (if keyMatch pl ct a then (a.total).getD 0 else 0) + barGroupSum as pl ct := by
  unfold barGroupSum
  rw [List.filter_cons]
  by_cases h : keyMatch pl ct a
  · rw [if_pos h, if_pos h, List.filterMap_cons]
    cases ht : a.total with
    | none => simp
    | some v => simp
  · rw [if_neg h, if_neg h, zero_add]

theorem barGroupSum_eq_contrib_sum (view : List PrepRow) (k : String × String) :
    barGroupSum view k.1 k.2 = (view.map (fun r => contrib r k)).sum := by
  induction view with
  | nil => rfl
  | cons a as ih =>
    rw [barGroupSum_cons, List.map_cons, List.sum_cons, ih, contrib_eq]

theorem sum_indicator_zero_of_not_mem {α : Type} [DecidableEq α] {k0 : α} {c : ℚ}
    {ks : List α} (h : k0 ∉ ks) :
    (ks.map (fun k => if k0 = k then c else 0)).sum = 0 := by
  induction ks with
  | nil => rfl
  | cons a as ih =>
    rw [List.map_cons, List.sum_cons]
    have hne : k0 ≠ a := fun hEq => h (hEq ▸ List.mem_cons_self a as)
    rw [if_neg hne, ih (fun hm => h (List.mem_cons.mpr (Or.inr hm))), add_zero]

theorem sum_indicator_single {α : Type} [DecidableEq α] {k0 : α} {c : ℚ}
    {ks : List α} (hnd : ks.Nodup) (hmem : k0 ∈ ks) :
    (ks.map (fun k => if k0 = k then c else 0)).sum = c := by
  induction ks with
  | nil => exact absurd hmem (List.not_mem_nil k0)
  | cons a as ih =>
    rw [List.map_cons, List.sum_cons]
    rcases List.mem_cons.mp hmem with rfl | hm
    · rw [if_pos rfl, sum_indicator_zero_of_not_mem (List.nodup_cons.mp hnd).1, add_zero]
    · have hne : k0 ≠ a := by
        rintro rfl
        exact (List.nodup_cons.mp hnd).1 hm
      rw [if_neg hne, ih (List.nodup_cons.mp hnd).2 hm, zero_add]

theorem sum_contrib_over_keys (r : PrepRow) (ks : List (String × String))
    (hnd : ks.Nodup) (hcov : ∀ k, rowKey r = some k → k ∈ ks) :
    (ks.map (fun k => contrib r k)).sum = (keyedTotal r).getD 0 := by
  cases hk : rowKey r with
  | none =>
    have hz : ∀ k ∈ ks, contrib r k = (0 : ℚ) := by
      intro k _
      unfold contrib
      rw [hk]
      simp
    rw [List.map_congr_left hz]
    unfold keyedTotal
    rw [hk]
    simp
  | some k0 =>
    have heq : ∀ k ∈ ks, contrib r k = if k0 = k then (r.total).getD 0 else 0 := by
      intro k _
      unfold contrib
      rw [hk]
      by_cases hkk : k0 = k
      · rw [if_pos hkk, if_pos (by rw [hkk])]
      · rw [if_neg hkk, if_neg (fun hs => hkk (Option.some_inj.mp hs))]
    rw [List.map_congr_left heq, sum_indicator_single hnd (hcov k0 hk)]
    unfold keyedTotal
    rw [hk]

theorem sum_sum_comm {α β : Type} (as : List α) (bs : List β) (f : α → β → ℚ) :
    (as.map (fun a => (bs.map (f a)).sum)).sum
      = (bs.map (fun b => (as.map (fun a => f a b)).sum)).sum := by
  induction as with
  | nil => simp
  | cons a as ih =>
    simp only [List.map_cons, List.sum_cons, List.sum_map_add, ih]

theorem filterMap_keyedTotal_sum (view : List PrepRow) :
    (view.filterMap keyedTotal).sum = (view.map (fun r => (keyedTotal r).getD 0)).sum := by
  induction view with
  | nil => rfl
  | cons a as ih =>
    rw [List.filterMap_cons, List.map_cons, List.sum_cons]
    cases h : keyedTotal a with
    | none => simp [ih]
    | some v => simp [ih, List.sum_cons]

/-- Claim C8: each grouped bar aggregates the `total` of exactly the rows whose
product line and customer type match the group — the group predicate coincides
with equality of the row's (product line, customer type) key — and across any
duplicate-free family of keys covering the view, the group sums add up to the
sum of all keyed totals: no row is counted twice and no keyed row is dropped. -/
theorem c8_grouped_bar_partition :
    ∀ (view : List PrepRow) (ks : List (String × String)),
      ks.Nodup →
      (∀ r ∈ view, ∀ k, rowKey r = some k → k ∈ ks) →
      ((∀ pl ct, barGroupSum view pl ct
          = ((view.filter (fun r => rowKey r == some (pl, ct))).filterMap
              (fun r => r.total)).sum)
        ∧ (ks.map (fun k => barGroupSum view k.1 k.2)).sum
            = (view.filterMap keyedTotal).sum) := by
  intro view ks hnd hcov
  constructor
  · intro pl ct
    unfold barGroupSum
    have hpred : ∀ r ∈ view, keyMatch pl ct r = (rowKey r == some (pl, ct)) := by
      intro r _
      by_cases h : rowKey r = some (pl, ct)
      · rw [(keyMatch_iff pl ct r).mpr h, beq_iff_eq.mpr h]
      · have h1 : keyMatch pl ct r = false := by
          rw [Bool.eq_false_iff]
          exact fun hb => h ((keyMatch_iff pl ct r).mp hb)
        have h2 : (rowKey r == some (pl, ct)) = false := by
          rw [beq_eq_false_iff_ne]
          exact h
        rw [h1, h2]
    rw [List.filter_congr hpred]
  · have h1 : ∀ k ∈ ks, barGroupSum view k.1 k.2 = (view.map (fun r => contrib r k)).sum :=
      fun k _ => barGroupSum_eq_contrib_sum view k
    rw [List.map_congr_left h1, sum_sum_comm ks view (fun k r => contrib r k)]
    have h2 : ∀ r ∈ view, (ks.map (fun k => contrib r k)).sum = (keyedTotal r).getD 0 :=
      fun r hr => sum_contrib_over_keys r ks hnd (hcov r hr)
    rw [List.map_congr_left h2, ← filterMap_keyedTotal_sum]

/-- Claim C8 witness: a three-row view with two distinct groups; the two group
sums add up to the total of all rows. -/
theorem c8_grouped_bar_partition_witness :
    ([("Health and beauty", "Member"), ("Sports and travel", "Normal")]
        : List (String × String)).Nodup
    ∧ (∀ r ∈ [sampleView "A" "Female" "Health and beauty" "Member" 100 4,
              sampleView "A" "Male" "Health and beauty" "Member" 30 8,
              sampleView "B" "Female" "Sports and travel" "Normal" 50 9],
        ∀ k, rowKey r = some k →
          k ∈ ([("Health and beauty", "Member"), ("Sports and travel", "Normal")]
            : List (String × String)))
    ∧ (([("Health and beauty", "Member"), ("Sports and travel", "Normal")]
          : List (String × String)).map
          (fun k => barGroupSum
            [sampleView "A" "Female" "Health and beauty" "Member" 100 4,
             sampleView "A" "Male" "Health and beauty" "Member" 30 8,
             sampleView "B" "Female" "Sports and travel" "Normal" 50 9] k.1 k.2)).sum
        = ([sampleView "A" "Female" "Health and beauty" "Member" 100 4,
            sampleView "A" "Male" "Health and beauty" "Member" 30 8,
            sampleView "B" "Female" "Sports and travel" "Normal" 50 9].filterMap
            keyedTotal).sum :=
  ⟨by decide, by decide,
   (c8_grouped_bar_partition
      [sampleView "A" "Female" "Health and beauty" "Member" 100 4,
       sampleView "A" "Male" "Health and beauty" "Member" 30 8,
       sampleView "B" "Female" "Sports and travel" "Normal" 50 9]
      [("Health and beauty", "Member"), ("Sports and travel", "Normal")]
      (by decide) (by decide)).2⟩

end Dashboard
